import Mathlib

/-
Verification of the transaction synchronization and auto-categorization
engine of the mint-bean repository.

The definitions below are a shallow embedding of the Python source in
`backend/app/services/rule_engine.py` and
`backend/app/services/plaid_service.py`, together with the relevant ORM
models (`models/transaction.py`, `models/rule.py`,
`models/plaid_category_mapping.py`, plus the columns added by
`migrate_phase1_schema.py`).

Modelling conventions:
* SQLAlchemy rows become Lean structures; the database session becomes an
  explicit `Store` record that is threaded through the functions.  Row
  mutation is modelled as replacing the row (located by its primary key)
  with an updated value.
* Python `Optional` columns become `Option`; Python truthiness of an
  optional integer (`if transaction.category_id:`) is `truthyInt`, of an
  optional string (`if transaction.plaid_primary_category:`) is
  `truthyStr`.
* Monetary amounts and the `confidence` column become `Rat`; timestamps
  (`datetime.now(UTC)`) become an abstract `now : Nat` argument.
* `json.loads` of the user-stored `conditions` / `actions` columns is
  modelled by storing the column in already-parsed form
  (`StoredJson α = ok α | malformed`); a malformed column raises
  `json.JSONDecodeError`, modelled by the `Except PyError` monad that the
  rule engine and everything calling it runs in.
* `re.search(pattern, string, re.IGNORECASE)` (with the `re.error` branch
  folded in as `false`) and the row order the database returns for the
  rules query `filter(Rule.active).order_by(Rule.priority.desc())` are
  parameters of the embedding, bundled in `Oracle`: SQL leaves the
  relative order of rows with equal `priority` unspecified, so theorems
  about the rules query quantify over every priority-descending
  permutation (`validRuleQuery`).
* Fields of the ORM rows that no claim mentions (user_id, narration,
  links, raw_data, beancount fields, created_at/updated_at) are omitted;
  `str()` of a non-string Python value and `float()` of a string are
  approximated (`pyStr`, `pyFloat`) and are not relied on by any theorem.
-/

namespace MintBean

/-- Dynamic (Python) values that a condition field can resolve to and that
a condition's JSON `value` can hold. -/
inductive Value where
  | vnull
  | vstr (s : String)
  | vnum (q : Rat)
  | vbool (b : Bool)
deriving DecidableEq, Repr

/-- Python `str(v)` (approximate for numbers and booleans; no theorem
depends on those renderings). -/
def pyStr : Value → String
  | .vnull => "None"
  | .vstr s => s
  | .vnum q => toString q
  | .vbool b => if b then "True" else "False"

/-- Parse an optionally signed decimal literal, the fragment of Python
`float(string)` relevant here (no exponents, infinities or NaN). -/
def parseDecimal? (s : String) : Option Rat :=
  let core (t : List Char) (sign : Rat) : Option Rat :=
    let intPart := t.takeWhile (·.isDigit)
    let rest := t.drop intPart.length
    if intPart.isEmpty then none
    else
      let ipn : Nat := intPart.foldl (fun n c => n * 10 + (c.toNat - 48)) 0
      match rest with
      | [] => some (sign * (ipn : Rat))
      | '.' :: frac =>
        if frac.all (·.isDigit) then
          let fn : Nat := frac.foldl (fun n c => n * 10 + (c.toNat - 48)) 0
          some (sign * ((ipn : Rat) + (fn : Rat) / ((10 : Rat) ^ frac.length)))
        else none
      | _ => none
  match s.data with
  | '-' :: t => core t (-1)
  | '+' :: t => core t 1
  | t => core t 1

/-- Python `float(v)`: `none` models the `(ValueError, TypeError)` raised
on a failed coercion. -/
def pyFloat : Value → Option Rat
  | .vnull => none
  | .vnum q => some q
  | .vbool b => some (if b then 1 else 0)
  | .vstr s => parseDecimal? s

/-- Truthiness of an optional integer column (Python `if x:` on
`Optional[int]`). -/
def truthyInt : Option Int → Bool
  | none => false
  | some n => decide (n ≠ 0)

/-- Truthiness of an optional string column (Python `if x:` on
`Optional[str]`). -/
def truthyStr : Option String → Bool
  | none => false
  | some s => decide (s ≠ "")

/-- Python `opt or dflt` on an optional string, where the empty string is
falsy. -/
def pyOrStr (opt : Option String) (dflt : String) : String :=
  match opt with
  | none => dflt
  | some s => if s = "" then dflt else s

/-- Python `s.lower()` (ASCII). -/
def pyLower (s : String) : String :=
  String.mk (s.data.map Char.toLower)

/-- Python `s.startswith(pre)`. -/
def pyStartsWith (s pre : String) : Bool :=
  pre.data.isPrefixOf s.data

/-- Python `s.endswith(suf)`. -/
def pyEndsWith (s suf : String) : Bool :=
  suf.data.isSuffixOf s.data

/-- Python `field.split(".", 1)` when the field contains a dot: the part
before the first dot and everything after it.  `none` when there is no
dot. -/
def splitFirstDot : List Char → Option (List Char × List Char)
  | [] => none
  | c :: rest =>
    if c = '.' then some ([], rest)
    else
      match splitFirstDot rest with
      | none => none
      | some (pre, post) => some (c :: pre, post)

/-- Account row (`models/account.py`), restricted to the attributes the
sync and rule code reads. -/
structure Account where
  id : Nat
  name : String
  official_name : Option String
  plaid_account_id : String
deriving DecidableEq, Repr

/-- The `categorization_method` column values the engine writes
("plaid_mapping" and "rule" in the source). -/
inductive CatMethod where
  | plaid_mapping
  | rule
deriving DecidableEq, Repr

/-- Transaction row (`models/transaction.py` plus the columns added by
`migrate_phase1_schema.py`).  `tags` is stored in the database as a JSON
string and is modelled here in parsed form. -/
structure Transaction where
  id : Nat
  transaction_id : String
  plaid_transaction_id : Option String
  account_id : Nat
  category_id : Option Int
  date : String
  amount : Rat
  description : String
  payee : Option String
  currency : String
  environment : Option String
  tags : Option (List String)
  pending : Bool
  reviewed : Bool
  synced_to_beancount : Bool
  plaid_category : Option (List String)
  plaid_primary_category : Option String
  plaid_detailed_category : Option String
  plaid_confidence_level : Option String
  merchant_name : Option String
  auto_categorized : Bool
  categorization_method : Option CatMethod
deriving DecidableEq, Repr

/-- Category row (`models/category.py`), restricted to what
`RuleEngine._apply_actions` reads. -/
structure Category where
  id : Int
  name : String
deriving DecidableEq, Repr

/-- PlaidCategoryMapping row (`models/plaid_category_mapping.py`). -/
structure PlaidCategoryMapping where
  id : Nat
  plaid_primary_category : String
  plaid_detailed_category : Option String
  category_id : Int
  confidence : Rat
  auto_apply : Bool
  match_count : Nat
  last_matched_at : Option Nat
deriving DecidableEq, Repr

/-- Result of `json.loads` on a stored text column: either the parsed
value or a `json.JSONDecodeError`. -/
inductive StoredJson (α : Type) where
  | ok (val : α)
  | malformed
deriving DecidableEq, Repr

/-- The errors the embedded code can raise (only JSON decoding errors
escape the modelled fragment; Plaid API errors live outside it). -/
inductive PyError where
  | jsonDecodeError
deriving DecidableEq, Repr

/-- A rule's condition tree, the JSON shape documented in
`RuleEngine._matches_conditions`: a leaf `field/operator/value` object or
an `all`/`any` combinator.  A JSON object missing `field` or `operator`
is encoded by the empty string, which the evaluator rejects exactly as
the source's `if not field or not operator` does. -/
inductive Condition where
  | leaf (field : String) (operator : String) (value : Value)
  | allOf (cs : List Condition)
  | anyOf (cs : List Condition)

/-- A rule's parsed `actions` JSON object (`RuleEngine._parse_actions`).
`set_category` holds either an integer category id or a category name;
`add_tags` is either a JSON list or some other (invalid) value. -/
inductive CatRef where
  | byId (i : Int)
  | byName (s : String)
deriving DecidableEq, Repr

inductive TagsVal where
  | tagList (ts : List String)
  | invalid
deriving DecidableEq, Repr

structure Actions where
  set_category : Option CatRef := none
  set_payee : Option String := none
  add_tags : Option TagsVal := none
  set_reviewed : Option Bool := none
deriving DecidableEq, Repr

/-- Python truthiness of the actions dict (`if actions`): true iff it has
at least one key. -/
def Actions.nonEmpty (a : Actions) : Bool :=
  a.set_category.isSome || a.set_payee.isSome || a.add_tags.isSome || a.set_reviewed.isSome

/-- Rule row (`models/rule.py`).  The list position of a rule in
`Store.rules` is its insertion order; `id` is the autoincrement primary
key, so earlier-created rules carry smaller ids. -/
structure Rule where
  id : Nat
  name : String
  conditions : StoredJson Condition
  actions : StoredJson Actions
  priority : Int
  active : Bool
  match_count : Nat
  last_matched_at : Option Nat

/-- The database state the engine reads and writes. -/
structure Store where
  accounts : List Account
  transactions : List Transaction
  categories : List Category
  mappings : List PlaidCategoryMapping
  rules : List Rule
  nextTxnId : Nat

/-- The two under-determined ingredients of the embedding: the result of
`re.search` on already lower-cased pattern and string (with the
`re.error` branch folded in as `false`), and the row order the database
returns for `query(Rule).filter(Rule.active).order_by(Rule.priority.desc())`. -/
structure Oracle where
  rx : String → String → Bool
  sortRules : List Rule → List Rule

/-- Priority-descending check on a rule list (the one ordering the SQL
`ORDER BY priority DESC` does guarantee). -/
def priorityDescB : List Rule → Bool
  | [] => true
  | [_] => true
  | a :: b :: rest => decide (b.priority ≤ a.priority) && priorityDescB (b :: rest)

/-- The lists of rules the database may legally return for the query in
`RuleEngine.apply_rules`: exactly the active rules, in some
priority-descending order.  SQL does not specify the relative order of
rows with equal priority. -/
def validRuleQuery (table res : List Rule) : Prop :=
  res.Perm (table.filter (·.active)) ∧ priorityDescB res = true

/-- RuleEngine._get_field_value restricted to a related `account` object:
`getattr(account, attr, None)`. -/
def accountAttr (a : Account) : String → Value
  | "name" => .vstr a.name
  | "official_name" => match a.official_name with
    | none => .vnull
    | some s => .vstr s
  | "plaid_account_id" => .vstr a.plaid_account_id
  | "id" => .vnum (a.id : Rat)
  | _ => .vnull

/-- RuleEngine._get_field_value: direct attribute access
`getattr(transaction, field, None)` over the columns the rule language
documents, with dotted paths `account.<attr>` resolved through the
transaction's related Account row (the ORM relationship, looked up here
by foreign key).  Unknown fields resolve to `None`. -/
def getFieldValue (accounts : List Account) (t : Transaction) (field : String) : Value :=
  match splitFirstDot field.data with
  | some (head, tail) =>
    if String.mk head = "account" then
      match accounts.find? (fun a => a.id = t.account_id) with
      | none => .vnull
      | some a => accountAttr a (String.mk tail)
    else .vnull
  | none =>
    match field with
    | "description" => .vstr t.description
    | "payee" => match t.payee with | none => .vnull | some s => .vstr s
    | "merchant_name" => match t.merchant_name with | none => .vnull | some s => .vstr s
    | "amount" => .vnum t.amount
    | "pending" => .vbool t.pending
    | "reviewed" => .vbool t.reviewed
    | "auto_categorized" => .vbool t.auto_categorized
    | "synced_to_beancount" => .vbool t.synced_to_beancount
    | "plaid_primary_category" =>
      match t.plaid_primary_category with | none => .vnull | some s => .vstr s
    | "plaid_detailed_category" =>
      match t.plaid_detailed_category with | none => .vnull | some s => .vstr s
    | "plaid_confidence_level" =>
      match t.plaid_confidence_level with | none => .vnull | some s => .vstr s
    | "currency" => .vstr t.currency
    | "date" => .vstr t.date
    | "transaction_id" => .vstr t.transaction_id
    | "plaid_transaction_id" =>
      match t.plaid_transaction_id with | none => .vnull | some s => .vstr s
    | "environment" => match t.environment with | none => .vnull | some s => .vstr s
    | "category_id" => match t.category_id with | none => .vnull | some i => .vnum (i : Rat)
    | _ => .vnull

/-- Substring test on character lists (helper for `strContains`). -/
def listContainsSub (needle : List Char) : List Char → Bool
  | [] => needle.isEmpty
  | c :: rest => needle.isPrefixOf (c :: rest) || listContainsSub needle rest

/-- Python `needle in hay` on strings (the empty needle is contained in
everything, as in Python). -/
def strContains (hay needle : String) : Bool :=
  listContainsSub needle.data hay.data

/-- The string-class operators of `RuleEngine._apply_operator`. -/
def stringOperators : List String :=
  ["equals", "not_equals", "contains", "not_contains", "starts_with", "ends_with", "regex"]

/-- The numeric-class operators of `RuleEngine._apply_operator`. -/
def numericOperators : List String :=
  ["greater_than", "less_than", "greater_than_or_equal", "less_than_or_equal"]

/-- RuleEngine._apply_operator.  A `None` field value short-circuits to
`operator == "equals" and expected_value is None`; string operators
lower-case both sides (`str(...)` first); numeric operators coerce both
sides with `float(...)` and yield `false` on coercion failure; an
unrecognised operator yields `false`. -/
def applyOperator (rx : String → String → Bool) (field_value : Value) (operator : String)
    (expected_value : Value) : Bool :=
  if field_value = .vnull then
    decide (operator = "equals") && decide (expected_value = .vnull)
  else if operator ∈ stringOperators then
    let field_str := pyLower (pyStr field_value)
    let expected_str := if expected_value = .vnull then "" else pyLower (pyStr expected_value)
    if operator = "equals" then decide (field_str = expected_str)
    else if operator = "not_equals" then decide (field_str ≠ expected_str)
    else if operator = "contains" then strContains field_str expected_str
    else if operator = "not_contains" then !strContains field_str expected_str
    else if operator = "starts_with" then pyStartsWith field_str expected_str
    else if operator = "ends_with" then pyEndsWith field_str expected_str
    else rx expected_str field_str
  else if operator ∈ numericOperators then
    match pyFloat field_value, pyFloat expected_value with
    | some field_num, some expected_num =>
      if operator = "greater_than" then decide (expected_num < field_num)
      else if operator = "less_than" then decide (field_num < expected_num)
      else if operator = "greater_than_or_equal" then decide (expected_num ≤ field_num)
      else decide (field_num ≤ expected_num)
    | _, _ => false
  else false

mutual

/-- RuleEngine._evaluate_condition: combinators recurse (`all` /
`any` short-circuit like the Python generators), a leaf without a field
or operator is false, a leaf whose field resolves to `None` is false
unless the operator is `equals`/`not_equals`, and otherwise the operator
is applied. -/
def evaluateCondition (accounts : List Account) (rx : String → String → Bool)
    (t : Transaction) : Condition → Bool
  | .allOf cs => evalAll accounts rx t cs
  | .anyOf cs => evalAny accounts rx t cs
  | .leaf field operator value =>
    if field = "" ∨ operator = "" then false
    else
      let field_value := getFieldValue accounts t field
      if field_value = .vnull ∧ operator ∉ ["equals", "not_equals"] then false
      else applyOperator rx field_value operator value

/-- Conjunction of child conditions (Python `all(...)`). -/
def evalAll (accounts : List Account) (rx : String → String → Bool)
    (t : Transaction) : List Condition → Bool
  | [] => true
  | c :: cs => evaluateCondition accounts rx t c && evalAll accounts rx t cs

/-- Disjunction of child conditions (Python `any(...)`). -/
def evalAny (accounts : List Account) (rx : String → String → Bool)
    (t : Transaction) : List Condition → Bool
  | [] => false
  | c :: cs => evaluateCondition accounts rx t c || evalAny accounts rx t cs

end

/-- RuleEngine._matches_conditions: `json.loads(rule.conditions)` (which
raises on a malformed column) followed by condition evaluation. -/
def matchesConditions (accounts : List Account) (rx : String → String → Bool)
    (t : Transaction) (r : Rule) : Except PyError Bool :=
  match r.conditions with
  | .malformed => .error .jsonDecodeError
  | .ok c => .ok (evaluateCondition accounts rx t c)

/-- RuleEngine._parse_actions: `json.loads(actions_json)`. -/
def parseActions (r : Rule) : Except PyError Actions :=
  match r.actions with
  | .malformed => .error .jsonDecodeError
  | .ok a => .ok a

/-- The `set_category` block of `RuleEngine._apply_actions`: an integer
is used directly, a string is looked up by category name (an unknown
name only logs a warning and assigns nothing), and in either case the
transaction is marked `auto_categorized = True` with
`categorization_method = "rule"`. -/
def applySetCategory (categories : List Category) (t : Transaction) : Option CatRef → Transaction
  | none => t
  | some ref =>
    let t1 := match ref with
      | .byId i => { t with category_id := some i }
      | .byName s =>
        match categories.find? (fun c : Category => c.name = s) with
        | some c => { t with category_id := some c.id }
        | none => t
    { t1 with auto_categorized := true, categorization_method := some .rule }

/-- The `set_payee` block of `RuleEngine._apply_actions`. -/
def applySetPayee (t : Transaction) : Option String → Transaction
  | none => t
  | some p => { t with payee := some p }

/-- The `add_tags` block of `RuleEngine._apply_actions`:
`list(set(existing + tags))` is a set-union merge; since Python's set
iteration order is unspecified, the merge is modelled as a first-
occurrence deduplication of the concatenation.  A non-list value only
logs a warning. -/
def applyAddTags (t : Transaction) : Option TagsVal → Transaction
  | none => t
  | some .invalid => t
  | some (.tagList ts) =>
    let existing := match t.tags with | none => [] | some l => l
    { t with tags := some ((existing ++ ts).dedup) }

/-- The `set_reviewed` block of `RuleEngine._apply_actions`. -/
def applySetReviewed (t : Transaction) : Option Bool → Transaction
  | none => t
  | some b => { t with reviewed := b }

/-- RuleEngine._apply_actions: the four action blocks in source order. -/
def applyActions (categories : List Category) (t : Transaction) (a : Actions) : Transaction :=
  applySetReviewed
    (applyAddTags
      (applySetPayee (applySetCategory categories t a.set_category) a.set_payee)
      a.add_tags)
    a.set_reviewed

/-- In-place mutation of the transaction row with primary key `tid`
(SQLAlchemy identity-map semantics: ids are unique, so exactly the row
being worked on changes). -/
def updateTxn (s : Store) (tid : Nat) (f : Transaction → Transaction) : Store :=
  { s with transactions := s.transactions.map (fun t => if t.id = tid then f t else t) }

/-- The statistics update a matched rule receives
(`rule.match_count += 1; rule.last_matched_at = now`). -/
def updateRuleStats (s : Store) (rid : Nat) (now : Nat) : Store :=
  { s with rules := s.rules.map (fun r =>
      if r.id = rid then { r with match_count := r.match_count + 1, last_matched_at := some now }
      else r) }

/-- The statistics update a selected mapping receives
(`mapping.match_count += 1; mapping.last_matched_at = now`). -/
def updateMappingStats (s : Store) (mid : Nat) (now : Nat) : Store :=
  { s with mappings := s.mappings.map (fun m =>
      if m.id = mid then { m with match_count := m.match_count + 1, last_matched_at := some now }
      else m) }

/-- The body of the `apply_rules` loop once a rule has matched and its
actions have parsed: update the rule's statistics, apply the actions to
the transaction when `apply_changes`, commit, and return the actions. -/
def ruleFireStep (now : Nat) (s : Store) (t : Transaction) (apply_changes : Bool)
    (r : Rule) (acts : Actions) : Store × Transaction × Option Actions :=
  let s1 := updateRuleStats s r.id now
  let t1 := if apply_changes then applyActions s1.categories t acts else t
  let s2 := if apply_changes then updateTxn s1 t.id (fun u => applyActions s1.categories u acts)
            else s1
  (s2, t1, some acts)

/-- The rule the `apply_rules` loop stops at: the first rule of the query
result whose conditions evaluate true.  A malformed conditions column
raises before any later rule is considered. -/
def firstMatchingRule (accounts : List Account) (rx : String → String → Bool)
    (t : Transaction) : List Rule → Except PyError (Option Rule)
  | [] => .ok none
  | r :: rest =>
    match matchesConditions accounts rx t r with
    | .error e => .error e
    | .ok true => .ok (some r)
    | .ok false => firstMatchingRule accounts rx t rest

/-- RuleEngine.apply_rules, run over an explicit query result `res`:
iterate the rules in order, and fire the first one that matches.  Both
`json.loads` calls can raise, aborting the whole pass. -/
def applyRulesOn (now : Nat) (rx : String → String → Bool) (s : Store) (res : List Rule)
    (t : Transaction) (apply_changes : Bool) :
    Except PyError (Store × Transaction × Option Actions) :=
  match res with
  | [] => .ok (s, t, none)
  | r :: rest =>
    match matchesConditions s.accounts rx t r with
    | .error e => .error e
    | .ok false => applyRulesOn now rx s rest t apply_changes
    | .ok true =>
      match parseActions r with
      | .error e => .error e
      | .ok acts => .ok (ruleFireStep now s t apply_changes r acts)

/-- RuleEngine.apply_rules: the rules query followed by the first-match
loop. -/
def applyRules (o : Oracle) (now : Nat) (s : Store) (t : Transaction) (apply_changes : Bool) :
    Except PyError (Store × Transaction × Option Actions) :=
  applyRulesOn now o.rx s (o.sortRules s.rules) t apply_changes

/-- Strict preference between two mapping candidates, following the
`ORDER BY detailed IS NOT NULL DESC, confidence DESC` of the mapping
query: `b` beats `a` when `b` has a detailed code and `a` does not, or
when both agree on that and `b` has strictly higher confidence. -/
def mappingBetter (a b : PlaidCategoryMapping) : Bool :=
  (!a.plaid_detailed_category.isSome && b.plaid_detailed_category.isSome)
    || (a.plaid_detailed_category.isSome == b.plaid_detailed_category.isSome
          && decide (a.confidence < b.confidence))

/-- Select `.first()` of the ordered candidates.  Rows tied on the whole
sort key are returned by SQL in an unspecified order; this model keeps
the earliest table row, which no theorem depends on. -/
def pickBestMapping : List PlaidCategoryMapping → Option PlaidCategoryMapping
  | [] => none
  | m :: ms =>
    match pickBestMapping ms with
    | none => some m
    | some best => if mappingBetter m best then some best else some m

/-- The mapping query of `PlaidService.apply_auto_categorization`:
candidates have `auto_apply` true, the transaction's primary category,
and either a NULL detailed category (primary-only catch-all) or exactly
the transaction's detailed category; the best candidate under the
detailed-first, confidence-second ordering is returned. -/
def mappingQuery (mappings : List PlaidCategoryMapping) (primary : String)
    (detailed : Option String) : Option PlaidCategoryMapping :=
  pickBestMapping (mappings.filter (fun m =>
    m.auto_apply && m.plaid_primary_category == primary
      && (m.plaid_detailed_category.isNone || m.plaid_detailed_category == detailed)))

/-- The whole mapping stage: the `if transaction.plaid_primary_category:`
truthiness guard around the query. -/
def mappingLookup (mappings : List PlaidCategoryMapping) (t : Transaction) :
    Option PlaidCategoryMapping :=
  match t.plaid_primary_category with
  | none => none
  | some p => if p = "" then none else mappingQuery mappings p t.plaid_detailed_category

/-- The dictionary `PlaidService.apply_auto_categorization` returns:
method ("plaid_mapping" / "rule" / None), category id and confidence. -/
structure CategorizationResult where
  method : Option CatMethod
  category_id : Option Int
  confidence : Option Rat
deriving DecidableEq, Repr

/-- The result dictionary for "no categorization applied" — returned both
when no rule matches and when the matched rule's actions carry no
`set_category` key. -/
def noCategorization : CategorizationResult := ⟨none, none, none⟩

/-- The field mutation the mapping stage performs on a hit. -/
def applyMappingHit (m : PlaidCategoryMapping) (u : Transaction) : Transaction :=
  { u with category_id := some m.category_id, auto_categorized := true,
           categorization_method := some .plaid_mapping }

/-- PlaidService.apply_auto_categorization: skip when the transaction is
manually categorized (`category_id` truthy and not auto-categorized);
otherwise try the Plaid category mapping; otherwise run the rule engine
with `apply_changes=True` and report method "rule" exactly when the
returned action set contains `set_category`. -/
def applyAutoCategorization (o : Oracle) (now : Nat) (s : Store) (t : Transaction) :
    Except PyError (Store × Transaction × CategorizationResult) :=
  if truthyInt t.category_id && !t.auto_categorized then
    .ok (s, t, ⟨none, t.category_id, none⟩)
  else
    match mappingLookup s.mappings t with
    | some m =>
      let s1 := updateMappingStats (updateTxn s t.id (applyMappingHit m)) m.id now
      .ok (s1, applyMappingHit m t, ⟨some .plaid_mapping, some m.category_id, some m.confidence⟩)
    | none =>
      match applyRules o now s t true with
      | .error e => .error e
      | .ok (s2, t2, some a) =>
        if a.set_category.isSome then .ok (s2, t2, ⟨some .rule, t2.category_id, none⟩)
        else .ok (s2, t2, noCategorization)
      | .ok (s2, t2, none) => .ok (s2, t2, noCategorization)

/-- The `personal_finance_category` object of a Plaid transaction
record. -/
structure PersonalFinanceCategory where
  primary : Option String
  detailed : Option String
  confidence_level : Option String
deriving DecidableEq, Repr

/-- One transaction record of a `transactions/sync` page (the fields
`sync_transactions` reads). -/
structure TxnRecord where
  transaction_id : String
  account_id : String
  date : String
  name : String
  merchant_name : Option String
  amount : Rat
  iso_currency_code : Option String
  pending : Bool
  personal_finance_category : Option PersonalFinanceCategory
  category : Option (List String)
deriving DecidableEq, Repr

/-- Extraction of the primary code (the `hasattr`/truthiness-guarded
block of `sync_transactions`). -/
def pfcPrimary (rec : TxnRecord) : Option String :=
  match rec.personal_finance_category with | none => none | some p => p.primary

def pfcDetailed (rec : TxnRecord) : Option String :=
  match rec.personal_finance_category with | none => none | some p => p.detailed

def pfcConfidence (rec : TxnRecord) : Option String :=
  match rec.personal_finance_category with | none => none | some p => p.confidence_level

/-- The `Transaction(...)` constructor call of the added-records loop:
amount is sign-inverted (Plaid is debit-positive), the payee falls back
from `merchant_name` to `name`, and the categorization fields start
empty (the database defaults). -/
def buildTransaction (env : Option String) (acct : Account) (rec : TxnRecord)
    (tid : Nat) : Transaction :=
  { id := tid
    transaction_id := "plaid_" ++ rec.transaction_id
    plaid_transaction_id := some rec.transaction_id
    account_id := acct.id
    category_id := none
    date := rec.date
    amount := -rec.amount
    description := rec.name
    payee := some (pyOrStr rec.merchant_name rec.name)
    currency := pyOrStr rec.iso_currency_code "USD"
    environment := env
    tags := none
    pending := rec.pending
    reviewed := false
    synced_to_beancount := false
    plaid_category := rec.category
    plaid_primary_category := pfcPrimary rec
    plaid_detailed_category := pfcDetailed rec
    plaid_confidence_level := pfcConfidence rec
    merchant_name := rec.merchant_name
    auto_categorized := false
    categorization_method := none }

/-- One iteration of the added-records loop: skip when the record's
account is unknown (warning) or a local transaction with the same
external id already exists; otherwise insert the new row (`db.add` +
`db.flush`, making it visible to lookups) and run the cascade on it. -/
def processAddedRecord (o : Oracle) (now : Nat) (env : Option String)
    (accMap : String → Option Account) (s : Store) (rec : TxnRecord) (n : Nat) :
    Except PyError (Store × Nat) :=
  match accMap rec.account_id with
  | none => .ok (s, n)
  | some acct =>
    match s.transactions.find? (fun t => t.plaid_transaction_id == some rec.transaction_id) with
    | some _ => .ok (s, n)
    | none =>
      let t := buildTransaction env acct rec s.nextTxnId
      let s1 := { s with transactions := s.transactions ++ [t], nextTxnId := s.nextTxnId + 1 }
      match applyAutoCategorization o now s1 t with
      | .error e => .error e
      | .ok (s2, _, _) => .ok (s2, n + 1)

/-- The added-records loop of one sync page. -/
def processAdded (o : Oracle) (now : Nat) (env : Option String)
    (accMap : String → Option Account) (s : Store) :
    List TxnRecord → Nat → Except PyError (Store × Nat)
  | [], n => .ok (s, n)
  | rec :: rest, n =>
    match processAddedRecord o now env accMap s rec n with
    | .error e => .error e
    | .ok (s1, n1) => processAdded o now env accMap s1 rest n1

/-- The field updates of the modified-records loop (everything before the
re-categorization decision). -/
def updateFromRecord (env : Option String) (u : Transaction) (rec : TxnRecord) : Transaction :=
  { u with date := rec.date
           description := rec.name
           payee := some (pyOrStr rec.merchant_name rec.name)
           amount := -rec.amount
           environment := env
           pending := rec.pending
           plaid_category := rec.category
           plaid_primary_category := pfcPrimary rec
           plaid_detailed_category := pfcDetailed rec
           plaid_confidence_level := pfcConfidence rec
           merchant_name := rec.merchant_name }

/-- One iteration of the modified-records loop: locate the existing row
by external id (silently skip when absent), record whether the row was
pending before the update, apply the field updates, and re-run the
cascade exactly when the row just settled from pending or has no
category. -/
def processModifiedRecord (o : Oracle) (now : Nat) (env : Option String)
    (s : Store) (rec : TxnRecord) (n : Nat) : Except PyError (Store × Nat) :=
  match s.transactions.find? (fun t => t.plaid_transaction_id == some rec.transaction_id) with
  | none => .ok (s, n)
  | some t =>
    let was_pending := t.pending
    let t1 := updateFromRecord env t rec
    let s1 := updateTxn s t.id (fun u => updateFromRecord env u rec)
    if (was_pending && !rec.pending) || !truthyInt t1.category_id then
      match applyAutoCategorization o now s1 t1 with
      | .error e => .error e
      | .ok (s2, _, _) => .ok (s2, n + 1)
    else .ok (s1, n + 1)

/-- The modified-records loop of one sync page. -/
def processModified (o : Oracle) (now : Nat) (env : Option String) (s : Store) :
    List TxnRecord → Nat → Except PyError (Store × Nat)
  | [], n => .ok (s, n)
  | rec :: rest, n =>
    match processModifiedRecord o now env s rec n with
    | .error e => .error e
    | .ok (s1, n1) => processModified o now env s1 rest n1

/-- One iteration of the removed-records loop: delete the row with the
given external id when present; absence is not an error. -/
def processRemovedRecord (s : Store) (rid : String) (n : Nat) : Store × Nat :=
  match s.transactions.find? (fun t => t.plaid_transaction_id == some rid) with
  | none => (s, n)
  | some t => ({ s with transactions := s.transactions.filter (fun u => u.id ≠ t.id) }, n + 1)

/-- The removed-records loop of one sync page. -/
def processRemoved (s : Store) : List String → Nat → Store × Nat
  | [], n => (s, n)
  | rid :: rest, n =>
    let (s1, n1) := processRemovedRecord s rid n
    processRemoved s1 rest n1

/-- One page of the `transactions/sync` response. -/
structure SyncPage where
  added : List TxnRecord
  modified : List TxnRecord
  removed : List String
  next_cursor : String
  has_more : Bool
deriving DecidableEq, Repr

/-- The added/modified/removed loops of one page, in source order. -/
def applyBatch (o : Oracle) (now : Nat) (env : Option String)
    (accMap : String → Option Account) (s : Store) (page : SyncPage) :
    Except PyError (Store × Nat × Nat × Nat) :=
  match processAdded o now env accMap s page.added 0 with
  | .error e => .error e
  | .ok (s1, a) =>
    match processModified o now env s1 page.modified 0 with
    | .error e => .error e
    | .ok (s2, m) =>
      let (s3, r) := processRemoved s2 page.removed 0
      .ok (s3, a, m, r)

/-- PlaidItem row (`models/plaid_item.py`), restricted to the sync-state
fields `sync_transactions` touches. -/
structure PlaidItem where
  cursor : Option String
  last_synced_at : Option Nat
  needs_update : Bool
  error_code : Option String
deriving DecidableEq, Repr

/-- The state of one `sync_transactions` call: the live session (`store`,
`item`), the item row as last committed to the database
(`committedItem`), the local `cursor` variable of the loop, and the
accumulated counts. -/
structure SyncState where
  store : Store
  item : PlaidItem
  committedItem : PlaidItem
  localCursor : String
  addedCount : Nat
  modifiedCount : Nat
  removedCount : Nat

/-- The state at the top of `sync_transactions`: counts zeroed and the
local cursor initialized from `plaid_item.cursor or ""`. -/
def initSyncState (item : PlaidItem) (s : Store) : SyncState :=
  { store := s, item := item, committedItem := item,
    localCursor := match item.cursor with | none => "" | some c => if c = "" then "" else c,
    addedCount := 0, modifiedCount := 0, removedCount := 0 }

/-- One iteration of the `while has_more` loop: apply the page's batch,
overwrite the local `cursor` variable with `response.next_cursor`, and
`db.commit()`.  The commit persists the store mutations and the item row
as it currently is — `plaid_item.cursor` has not been assigned inside
the loop, so the committed item still carries its pre-call state.
(The commits `apply_rules` issues mid-page also persist the item row
unchanged, so tracking the page-end commit suffices for the item.) -/
def syncPageStep (o : Oracle) (now : Nat) (env : Option String)
    (accMap : String → Option Account) (st : SyncState) (page : SyncPage) :
    Except PyError SyncState :=
  match applyBatch o now env accMap st.store page with
  | .error e => .error e
  | .ok (s1, a, m, r) =>
    .ok { st with store := s1
                  addedCount := st.addedCount + a
                  modifiedCount := st.modifiedCount + m
                  removedCount := st.removedCount + r
                  localCursor := page.next_cursor
                  committedItem := st.item }

/-- The page loop of `sync_transactions`, driven by the successive pages
the feed returns (the loop runs while the previous page reported
`has_more`). -/
def syncPages (o : Oracle) (now : Nat) (env : Option String)
    (accMap : String → Option Account) (st : SyncState) :
    List SyncPage → Except PyError SyncState
  | [] => .ok st
  | page :: rest =>
    match syncPageStep o now env accMap st page with
    | .error e => .error e
    | .ok st1 => syncPages o now env accMap st1 rest

/-- The epilogue after the loop: only now is the cursor written to the
item row, together with the sync timestamp and the cleared error flags,
and committed. -/
def finishSync (now : Nat) (st : SyncState) : SyncState :=
  let item1 : PlaidItem :=
    { cursor := some st.localCursor, last_synced_at := some now,
      needs_update := false, error_code := none }
  { st with item := item1, committedItem := item1 }

/-- PlaidService.sync_transactions, given the pages the feed serves this
call (account refresh is abstracted into `accMap`, the
`plaid_account_id → Account` dictionary the code builds from
`get_accounts`). -/
def syncTransactions (o : Oracle) (now : Nat) (env : Option String)
    (accMap : String → Option Account) (item : PlaidItem) (s : Store)
    (pages : List SyncPage) : Except PyError SyncState :=
  match syncPages o now env accMap (initSyncState item s) pages with
  | .error e => .error e
  | .ok st => .ok (finishSync now st)

/-! Helper definitions and lemmas for the theorems below. -/

/-- The external-id column of every transaction row, in table order. -/
def idsOf (s : Store) : List (Option String) :=
  s.transactions.map (fun t => t.plaid_transaction_id)

/-- The external ids actually present (the non-NULL values of
`plaid_transaction_id`). -/
def plaidIds (s : Store) : List String :=
  (idsOf s).reduceOption

@[simp] lemma applySetCategory_none_eq (cats : List Category) (t : Transaction) :
    applySetCategory cats t none = t := rfl

lemma applySetCategory_plaid (cats : List Category) (t : Transaction) (oc : Option CatRef) :
    (applySetCategory cats t oc).plaid_transaction_id = t.plaid_transaction_id := by
  cases oc with
  | none => rfl
  | some ref =>
    cases ref with
    | byId i => rfl
    | byName s =>
      simp only [applySetCategory]
      cases cats.find? (fun c : Category => c.name = s) <;> rfl

lemma applySetPayee_plaid (t : Transaction) (p : Option String) :
    (applySetPayee t p).plaid_transaction_id = t.plaid_transaction_id := by
  cases p <;> rfl

lemma applyAddTags_plaid (t : Transaction) (tv : Option TagsVal) :
    (applyAddTags t tv).plaid_transaction_id = t.plaid_transaction_id := by
  cases tv with
  | none => rfl
  | some v => cases v <;> rfl

lemma applySetReviewed_plaid (t : Transaction) (b : Option Bool) :
    (applySetReviewed t b).plaid_transaction_id = t.plaid_transaction_id := by
  cases b <;> rfl

lemma applyActions_plaid (cats : List Category) (t : Transaction) (a : Actions) :
    (applyActions cats t a).plaid_transaction_id = t.plaid_transaction_id := by
  simp only [applyActions, applySetReviewed_plaid, applyAddTags_plaid, applySetPayee_plaid,
    applySetCategory_plaid]

lemma applyMappingHit_plaid (m : PlaidCategoryMapping) (t : Transaction) :
    (applyMappingHit m t).plaid_transaction_id = t.plaid_transaction_id := rfl

lemma updateFromRecord_plaid (env : Option String) (t : Transaction) (rec : TxnRecord) :
    (updateFromRecord env t rec).plaid_transaction_id = t.plaid_transaction_id := rfl

@[simp] lemma updateTxn_accounts (s : Store) (tid : Nat) (f : Transaction → Transaction) :
    (updateTxn s tid f).accounts = s.accounts := rfl

@[simp] lemma updateTxn_rules (s : Store) (tid : Nat) (f : Transaction → Transaction) :
    (updateTxn s tid f).rules = s.rules := rfl

@[simp] lemma updateTxn_categories (s : Store) (tid : Nat) (f : Transaction → Transaction) :
    (updateTxn s tid f).categories = s.categories := rfl

@[simp] lemma updateTxn_mappings (s : Store) (tid : Nat) (f : Transaction → Transaction) :
    (updateTxn s tid f).mappings = s.mappings := rfl

@[simp] lemma updateRuleStats_transactions (s : Store) (rid now : Nat) :
    (updateRuleStats s rid now).transactions = s.transactions := rfl

@[simp] lemma updateRuleStats_accounts (s : Store) (rid now : Nat) :
    (updateRuleStats s rid now).accounts = s.accounts := rfl

@[simp] lemma updateRuleStats_categories (s : Store) (rid now : Nat) :
    (updateRuleStats s rid now).categories = s.categories := rfl

@[simp] lemma updateMappingStats_transactions (s : Store) (mid now : Nat) :
    (updateMappingStats s mid now).transactions = s.transactions := rfl

/-- A pointwise plaid-id-preserving row mutation leaves the external-id
column unchanged. -/
lemma updateTxn_idsOf (s : Store) (tid : Nat) (f : Transaction → Transaction)
    (hf : ∀ u, (f u).plaid_transaction_id = u.plaid_transaction_id) :
    idsOf (updateTxn s tid f) = idsOf s := by
  simp only [idsOf, updateTxn, List.map_map]
  refine List.map_congr_left (fun u _ => ?_)
  by_cases h : u.id = tid <;> simp [h, hf]

@[simp] lemma idsOf_updateRuleStats (s : Store) (rid now : Nat) :
    idsOf (updateRuleStats s rid now) = idsOf s := rfl

@[simp] lemma idsOf_updateMappingStats (s : Store) (mid now : Nat) :
    idsOf (updateMappingStats s mid now) = idsOf s := rfl

/-- The rule-engine pass never changes the external-id column: it only
touches rule statistics and (through `_apply_actions`) row fields other
than `plaid_transaction_id`. -/
lemma applyRulesOn_idsOf (now : Nat) (rx : String → String → Bool) (s : Store)
    (res : List Rule) (t : Transaction) (b : Bool) (s' : Store) (t' : Transaction)
    (a : Option Actions) (h : applyRulesOn now rx s res t b = .ok (s', t', a)) :
    idsOf s' = idsOf s := by
  induction res generalizing s with
  | nil =>
    simp only [applyRulesOn, Except.ok.injEq, Prod.mk.injEq] at h
    rw [← h.1]
  | cons r rest ih =>
    simp only [applyRulesOn] at h
    rcases hm : matchesConditions s.accounts rx t r with _ | mb
    · rw [hm] at h; exact absurd h (by simp)
    · rw [hm] at h
      cases mb with
      | false => exact ih s h
      | true =>
        rcases hp : parseActions r with _ | acts
        · rw [hp] at h; exact absurd h (by simp)
        · rw [hp] at h
          simp only [Except.ok.injEq, ruleFireStep, Prod.mk.injEq] at h
          rw [← h.1]
          cases b with
          | false => simp
          | true =>
            simp only [if_true]
            rw [updateTxn_idsOf _ _ _ (fun u => applyActions_plaid _ u acts)]
            simp

/-- The auto-categorization cascade never changes the external-id
column. -/
lemma cascade_idsOf (o : Oracle) (now : Nat) (s : Store) (t : Transaction)
    (s' : Store) (t' : Transaction) (r : CategorizationResult)
    (h : applyAutoCategorization o now s t = .ok (s', t', r)) :
    idsOf s' = idsOf s := by
  by_cases hskip : (truthyInt t.category_id && !t.auto_categorized) = true
  · simp only [applyAutoCategorization, if_pos hskip, Except.ok.injEq, Prod.mk.injEq] at h
    rw [← h.1]
  · rcases hm : mappingLookup s.mappings t with _ | m
    · rcases ha : applyRules o now s t true with e | ⟨s2, t2, oa⟩
      · simp only [applyAutoCategorization, if_neg hskip, hm, ha] at h
        exact absurd h (by simp)
      · have hids : idsOf s2 = idsOf s := applyRulesOn_idsOf _ _ _ _ _ _ _ _ _ ha
        rcases oa with _ | a
        · simp only [applyAutoCategorization, if_neg hskip, hm, ha, Except.ok.injEq,
            Prod.mk.injEq] at h
          rw [← h.1]; exact hids
        · by_cases hsc : a.set_category.isSome = true
          · simp only [applyAutoCategorization, if_neg hskip, hm, ha, if_pos hsc,
              Except.ok.injEq, Prod.mk.injEq] at h
            rw [← h.1]; exact hids
          · simp only [applyAutoCategorization, if_neg hskip, hm, ha, if_neg hsc,
              Except.ok.injEq, Prod.mk.injEq] at h
            rw [← h.1]; exact hids
    · simp only [applyAutoCategorization, if_neg hskip, hm, Except.ok.injEq,
        Prod.mk.injEq] at h
      rw [← h.1]
      rw [idsOf_updateMappingStats, updateTxn_idsOf _ _ _ (fun u => applyMappingHit_plaid m u)]

/-- A `None` result of the duplicate-check query means no row carries the
external id. -/
lemma plaid_find_none {l : List Transaction} {rid : String}
    (h : l.find? (fun t => t.plaid_transaction_id == some rid) = none) :
    some rid ∉ l.map (fun t => t.plaid_transaction_id) := by
  intro hmem
  rcases List.mem_map.mp hmem with ⟨u, hu, hplaid⟩
  have := (List.find?_eq_none.mp h) u hu
  simp [hplaid] at this

/-- A row carrying the external id makes the duplicate-check query
return something. -/
lemma plaid_find_some {l : List Transaction} {rid : String}
    (h : some rid ∈ l.map (fun t => t.plaid_transaction_id)) :
    ∃ u, l.find? (fun t => t.plaid_transaction_id == some rid) = some u := by
  rcases List.mem_map.mp h with ⟨u, hu, hplaid⟩
  have hsome : (l.find? (fun t => t.plaid_transaction_id == some rid)).isSome = true :=
    List.find?_isSome.mpr ⟨u, hu, by simp [hplaid]⟩
  exact Option.isSome_iff_exists.mp hsome

/-- Effect of one added-record iteration on the external-id column:
either a skip (column unchanged) or a fresh insert at the end. -/
lemma processAddedRecord_spec (o : Oracle) (now : Nat) (env : Option String)
    (accMap : String → Option Account) (s : Store) (rec : TxnRecord) (n : Nat)
    (s' : Store) (n' : Nat)
    (h : processAddedRecord o now env accMap s rec n = .ok (s', n')) :
    (idsOf s' = idsOf s ∨
      (idsOf s' = idsOf s ++ [some rec.transaction_id] ∧
        some rec.transaction_id ∉ idsOf s)) ∧
    ((accMap rec.account_id).isSome = true → some rec.transaction_id ∈ idsOf s') := by
  rcases hacc : accMap rec.account_id with _ | acct
  · simp only [processAddedRecord, hacc, Except.ok.injEq, Prod.mk.injEq] at h
    refine ⟨Or.inl (by rw [← h.1]), fun hs => ?_⟩
    simp at hs
  · rcases hfind : s.transactions.find?
        (fun t => t.plaid_transaction_id == some rec.transaction_id) with _ | u
    · simp only [processAddedRecord, hacc, hfind] at h
      split at h
      · exact absurd h (by simp)
      · rename_i s2 t2 r2 hc
        simp only [Except.ok.injEq, Prod.mk.injEq] at h
        have hids : idsOf s2 = idsOf s ++ [some rec.transaction_id] := by
          have hcas := cascade_idsOf _ _ _ _ _ _ _ hc
          rw [hcas]
          simp [idsOf, buildTransaction]
        constructor
        · exact Or.inr ⟨by rw [← h.1]; exact hids, plaid_find_none hfind⟩
        · intro _
          rw [← h.1, hids]
          simp
    · simp only [processAddedRecord, hacc, hfind, Except.ok.injEq, Prod.mk.injEq] at h
      have hmem : some rec.transaction_id ∈ idsOf s := by
        have hp := List.find?_some hfind
        have hu := List.mem_of_find?_eq_some hfind
        simp only [beq_iff_eq] at hp
        exact List.mem_map.mpr ⟨u, hu, hp⟩
      exact ⟨Or.inl (by rw [← h.1]), fun _ => by rw [← h.1]; exact hmem⟩

/-- Effect of the whole added loop on the external-id column: it only
appends, keeps the ids duplicate-free, and ends with every processed
record (whose account resolves) present. -/
lemma processAdded_spec (o : Oracle) (now : Nat) (env : Option String)
    (accMap : String → Option Account) (batch : List TxnRecord) :
    ∀ (s : Store) (n : Nat) (s' : Store) (n' : Nat),
    processAdded o now env accMap s batch n = .ok (s', n') →
    (∃ ext, idsOf s' = idsOf s ++ ext) ∧
    ((plaidIds s).Nodup → (plaidIds s').Nodup) ∧
    (∀ rec ∈ batch, (accMap rec.account_id).isSome = true →
      some rec.transaction_id ∈ idsOf s') := by
  induction batch with
  | nil =>
    intro s n s' n' h
    simp only [processAdded, Except.ok.injEq, Prod.mk.injEq] at h
    exact ⟨⟨[], by rw [← h.1]; simp⟩, fun hn => by rw [← h.1]; exact hn, by simp⟩
  | cons rec rest ih =>
    intro s n s' n' h
    rcases hr : processAddedRecord o now env accMap s rec n with e | ⟨s1, n1⟩
    · simp only [processAdded, hr] at h
      exact absurd h (by simp)
    · simp only [processAdded, hr] at h
      obtain ⟨hstep, hmem1⟩ := processAddedRecord_spec _ _ _ _ _ _ _ _ _ hr
      obtain ⟨⟨ext, hext⟩, hnd, hmemr⟩ := ih s1 n1 s' n' h
      have hprefix : ∃ ext0, idsOf s1 = idsOf s ++ ext0 := by
        rcases hstep with h1 | ⟨h1, _⟩
        · exact ⟨[], by rw [h1]; simp⟩
        · exact ⟨[some rec.transaction_id], h1⟩
      refine ⟨?_, ?_, ?_⟩
      · rcases hprefix with ⟨ext0, h0⟩
        exact ⟨ext0 ++ ext, by rw [hext, h0, List.append_assoc]⟩
      · intro hnds
        refine hnd ?_
        rcases hstep with h1 | ⟨h1, hfresh⟩
        · rw [plaidIds, h1]; exact hnds
        · rw [plaidIds, h1, List.reduceOption_append]
          rw [List.nodup_append]
          refine ⟨hnds, by simp, ?_⟩
          intro a ha hb
          simp only [List.reduceOption_cons_of_some, List.reduceOption_nil,
            List.mem_singleton] at hb
          subst hb
          exact hfresh (List.reduceOption_mem_iff.mp ha)
      · intro rec' hrec' hacc'
        rcases List.mem_cons.mp hrec' with heq | hmem'
        · subst heq
          have := hmem1 hacc'
          rw [hext]
          exact List.mem_append_left _ this
        · exact hmemr rec' hmem' hacc'

/-- When every record of the batch is already present (or has no
account), the added loop is a no-op: every iteration takes a skip
branch. -/
lemma processAdded_skip (o : Oracle) (now : Nat) (env : Option String)
    (accMap : String → Option Account) (batch : List TxnRecord) :
    ∀ (s : Store) (n : Nat),
    (∀ rec ∈ batch, (accMap rec.account_id).isSome = true →
      some rec.transaction_id ∈ idsOf s) →
    processAdded o now env accMap s batch n = .ok (s, n) := by
  induction batch with
  | nil => intro s n _; rfl
  | cons rec rest ih =>
    intro s n hall
    rcases hacc : accMap rec.account_id with _ | acct
    · have hrec : processAddedRecord o now env accMap s rec n = .ok (s, n) := by
        simp [processAddedRecord, hacc]
      simp only [processAdded, hrec]
      exact ih s n (fun r hr => hall r (List.mem_cons_of_mem _ hr))
    · have hmem : some rec.transaction_id ∈ idsOf s := by
        refine hall rec (List.mem_cons_self _ _) ?_
        rw [hacc]; rfl
      obtain ⟨u, hu⟩ := plaid_find_some hmem
      have hrec : processAddedRecord o now env accMap s rec n = .ok (s, n) := by
        simp [processAddedRecord, hacc, hu]
      simp only [processAdded, hrec]
      exact ih s n (fun r hr => hall r (List.mem_cons_of_mem _ hr))

/-- In a table whose non-NULL external ids are duplicate-free, a present
external id identifies exactly one row. -/
lemma filter_plaid_count (rid : String) :
    ∀ (l : List Transaction),
    ((l.map (fun t => t.plaid_transaction_id)).reduceOption).Nodup →
    some rid ∈ l.map (fun t => t.plaid_transaction_id) →
    (l.filter (fun t => t.plaid_transaction_id = some rid)).length = 1 := by
  intro l
  induction l with
  | nil => intro _ hmem; simp at hmem
  | cons u l' ih =>
    intro hnd hmem
    by_cases hu : u.plaid_transaction_id = some rid
    · have hnotin : ∀ v ∈ l', ¬(v.plaid_transaction_id = some rid) := by
        intro v hv hvp
        rw [List.map_cons, hu, List.reduceOption_cons_of_some] at hnd
        have : rid ∈ (l'.map (fun t => t.plaid_transaction_id)).reduceOption :=
          List.reduceOption_mem_iff.mpr (List.mem_map.mpr ⟨v, hv, hvp⟩)
        exact (List.nodup_cons.mp hnd).1 this
      have hfilter : l'.filter (fun t => t.plaid_transaction_id = some rid) = [] :=
        List.filter_eq_nil_iff.mpr (by intro a ha; simpa using hnotin a ha)
      simp [List.filter_cons, hu, hfilter]
    · have hmem' : some rid ∈ l'.map (fun t => t.plaid_transaction_id) := by
        rcases List.mem_cons.mp hmem with h1 | h1
        · exact absurd h1.symm hu
        · exact h1
      have hnd' : ((l'.map (fun t => t.plaid_transaction_id)).reduceOption).Nodup := by
        rw [List.map_cons] at hnd
        rcases hup : u.plaid_transaction_id with _ | a
        · rw [hup, List.reduceOption_cons_of_none] at hnd; exact hnd
        · rw [hup, List.reduceOption_cons_of_some] at hnd
          exact (List.nodup_cons.mp hnd).2
      simp [List.filter_cons, hu, ih hnd' hmem']

lemma priorityDescB_tail {x : Rule} {rest : List Rule}
    (h : priorityDescB (x :: rest) = true) : priorityDescB rest = true := by
  cases rest with
  | nil => rfl
  | cons y r =>
    simp only [priorityDescB, Bool.and_eq_true] at h
    exact h.2

lemma priorityDescB_head_ge {x : Rule} {rest : List Rule}
    (h : priorityDescB (x :: rest) = true) :
    ∀ y ∈ rest, y.priority ≤ x.priority := by
  induction rest generalizing x with
  | nil => intro y hy; simp at hy
  | cons y r ih =>
    intro z hz
    simp only [priorityDescB, Bool.and_eq_true, decide_eq_true_eq] at h
    rcases List.mem_cons.mp hz with rfl | hz'
    · exact h.1
    · exact le_trans (ih (by simpa [priorityDescB] using h.2) z hz') h.1

lemma firstMatch_mem {accounts : List Account} {rx : String → String → Bool}
    {t : Transaction} {res : List Rule} {r : Rule}
    (h : firstMatchingRule accounts rx t res = .ok (some r)) : r ∈ res := by
  induction res with
  | nil => simp [firstMatchingRule] at h
  | cons x rest ih =>
    simp only [firstMatchingRule] at h
    rcases hm : matchesConditions accounts rx t x with e | mb
    · rw [hm] at h; exact absurd h (by simp)
    · rw [hm] at h
      cases mb with
      | true =>
        simp only [Except.ok.injEq, Option.some.injEq] at h
        exact h ▸ List.mem_cons_self _ _
      | false => exact List.mem_cons_of_mem _ (ih h)

lemma firstMatch_matches {accounts : List Account} {rx : String → String → Bool}
    {t : Transaction} {res : List Rule} {r : Rule}
    (h : firstMatchingRule accounts rx t res = .ok (some r)) :
    matchesConditions accounts rx t r = .ok true := by
  induction res with
  | nil => simp [firstMatchingRule] at h
  | cons x rest ih =>
    simp only [firstMatchingRule] at h
    rcases hm : matchesConditions accounts rx t x with e | mb
    · rw [hm] at h; exact absurd h (by simp)
    · rw [hm] at h
      cases mb with
      | true =>
        simp only [Except.ok.injEq, Option.some.injEq] at h
        exact h ▸ hm
      | false => exact ih h

/-- In a priority-descending query result, the first matching rule has
maximal priority among all matching rules of the result. -/
lemma firstMatch_max {accounts : List Account} {rx : String → String → Bool}
    {t : Transaction} {res : List Rule} {r : Rule}
    (hsorted : priorityDescB res = true)
    (h : firstMatchingRule accounts rx t res = .ok (some r)) :
    ∀ r' ∈ res, matchesConditions accounts rx t r' = .ok true → r'.priority ≤ r.priority := by
  induction res with
  | nil => simp [firstMatchingRule] at h
  | cons x rest ih =>
    simp only [firstMatchingRule] at h
    rcases hm : matchesConditions accounts rx t x with e | mb
    · rw [hm] at h; exact absurd h (by simp)
    · rw [hm] at h
      cases mb with
      | true =>
        simp only [Except.ok.injEq, Option.some.injEq] at h
        subst h
        intro r' hr' _
        rcases List.mem_cons.mp hr' with rfl | hr''
        · exact le_refl _
        · exact priorityDescB_head_ge hsorted r' hr''
      | false =>
        intro r' hr' hr'm
        rcases List.mem_cons.mp hr' with rfl | hr''
        · rw [hm] at hr'm; simp at hr'm
        · exact ih (priorityDescB_tail hsorted) h r' hr'' hr'm

/-- The first-match loop, re-expressed through the rule it stops at. -/
lemma applyRulesOn_of_firstMatch_some {rx : String → String → Bool} {s : Store}
    {t : Transaction} {res : List Rule} {r : Rule} (now : Nat) (b : Bool)
    (h : firstMatchingRule s.accounts rx t res = .ok (some r)) :
    applyRulesOn now rx s res t b =
      (match parseActions r with
       | .error e => .error e
       | .ok acts => .ok (ruleFireStep now s t b r acts)) := by
  induction res with
  | nil => simp [firstMatchingRule] at h
  | cons x rest ih =>
    simp only [firstMatchingRule] at h
    rcases hm : matchesConditions s.accounts rx t x with e | mb
    · rw [hm] at h; exact absurd h (by simp)
    · rw [hm] at h
      cases mb with
      | true =>
        simp only [Except.ok.injEq, Option.some.injEq] at h
        subst h
        simp only [applyRulesOn, hm]
      | false =>
        simp only [applyRulesOn, hm]
        exact ih h

/-- No rule of the query result matches: the loop falls through. -/
lemma applyRulesOn_of_firstMatch_none {rx : String → String → Bool} {s : Store}
    {t : Transaction} {res : List Rule} (now : Nat) (b : Bool)
    (h : firstMatchingRule s.accounts rx t res = .ok none) :
    applyRulesOn now rx s res t b = .ok (s, t, none) := by
  induction res with
  | nil => rfl
  | cons x rest ih =>
    simp only [firstMatchingRule] at h
    rcases hm : matchesConditions s.accounts rx t x with e | mb
    · rw [hm] at h; exact absurd h (by simp)
    · rw [hm] at h
      cases mb with
      | true => simp at h
      | false =>
        simp only [applyRulesOn, hm]
        exact ih h

/-- A malformed conditions column reached before any match aborts the
pass with a JSON decode error. -/
lemma applyRulesOn_error_of_malformed {rx : String → String → Bool} {s : Store}
    {t : Transaction} (now : Nat) (b : Bool) (pre : List Rule) (rBad : Rule)
    (post : List Rule)
    (hpre : ∀ r ∈ pre, matchesConditions s.accounts rx t r = .ok false)
    (hbad : rBad.conditions = .malformed) :
    applyRulesOn now rx s (pre ++ rBad :: post) t b = .error .jsonDecodeError := by
  induction pre with
  | nil =>
    simp only [List.nil_append, applyRulesOn, matchesConditions, hbad]
  | cons x rest ih =>
    have hx : matchesConditions s.accounts rx t x = .ok false :=
      hpre x (List.mem_cons_self _ _)
    simp only [List.cons_append, applyRulesOn, hx]
    exact ih (fun r hr => hpre r (List.mem_cons_of_mem _ hr))

/-- During the page loop, the item row of the session is never assigned:
both the live and the committed item stay exactly as they were at loop
entry (the loop only overwrites the local cursor variable and the
store). -/
lemma syncPages_item (o : Oracle) (now : Nat) (env : Option String)
    (accMap : String → Option Account) :
    ∀ (pages : List SyncPage) (st0 st : SyncState),
    syncPages o now env accMap st0 pages = .ok st →
    st.item = st0.item ∧
      (st.committedItem = st0.committedItem ∨ st.committedItem = st0.item) := by
  intro pages
  induction pages with
  | nil =>
    intro st0 st h
    simp only [syncPages, Except.ok.injEq] at h
    subst h
    exact ⟨rfl, Or.inl rfl⟩
  | cons page rest ih =>
    intro st0 st h
    simp only [syncPages, syncPageStep] at h
    rcases hb : applyBatch o now env accMap st0.store page with e | ⟨s1, a, m, r⟩
    · rw [hb] at h; exact absurd h (by simp)
    · rw [hb] at h
      obtain ⟨h1, h2⟩ := ih _ _ h
      exact ⟨h1, by rcases h2 with h2 | h2 <;> rw [h2] <;> exact Or.inr rfl⟩

/-- The local cursor variable at loop exit holds the last page's
`next_cursor`. -/
lemma syncPages_lastCursor (o : Oracle) (now : Nat) (env : Option String)
    (accMap : String → Option Account) :
    ∀ (pages : List SyncPage) (st0 st : SyncState) (p : SyncPage),
    syncPages o now env accMap st0 pages = .ok st →
    pages.getLast? = some p →
    st.localCursor = p.next_cursor := by
  intro pages
  induction pages with
  | nil => intro st0 st p _ hlast; simp at hlast
  | cons page rest ih =>
    intro st0 st p h hlast
    simp only [syncPages, syncPageStep] at h
    rcases hb : applyBatch o now env accMap st0.store page with e | ⟨s1, a, m, r⟩
    · rw [hb] at h; exact absurd h (by simp)
    · rw [hb] at h
      cases rest with
      | nil =>
        simp only [List.getLast?_singleton, Option.some.injEq] at hlast
        subst hlast
        simp only [syncPages, Except.ok.injEq] at h
        rw [← h]
      | cons q rest' =>
        rw [List.getLast?_cons_cons] at hlast
        exact ih _ _ _ h hlast

/-! Concrete fixtures used by counterexamples and witnesses. -/

/-- A regex oracle that matches nothing (no fixture uses the `regex`
operator). -/
def rxNone : String → String → Bool := fun _ _ => false

/-- A database oracle whose rules query returns the active rules in
table (insertion) order; on every fixture below this order is
priority-descending, making it a valid query result. -/
def oracleA : Oracle := { rx := rxNone, sortRules := fun rs => rs.filter (·.active) }

def emptyStore : Store :=
  { accounts := [], transactions := [], categories := [], mappings := [], rules := [],
    nextTxnId := 1 }

def accMapEmpty : String → Option Account := fun _ => none

/-- A plain uncategorized settled transaction. -/
def txnBase : Transaction :=
  { id := 1, transaction_id := "plaid_t0", plaid_transaction_id := some "t0", account_id := 1,
    category_id := none, date := "2024-01-01", amount := -10, description := "Coffee Shop",
    payee := none, currency := "USD", environment := some "sandbox", tags := none,
    pending := false, reviewed := false, synced_to_beancount := false, plaid_category := none,
    plaid_primary_category := none, plaid_detailed_category := none,
    plaid_confidence_level := none, merchant_name := none, auto_categorized := false,
    categorization_method := none }

/-! C1 fixtures: an item mid-way through a two-page sync. -/

def itemC1 : PlaidItem :=
  { cursor := some "c0", last_synced_at := none, needs_update := false, error_code := none }

def pageC1 : SyncPage :=
  { added := [], modified := [], removed := [], next_cursor := "c1", has_more := true }

def runC1 : Except PyError SyncState :=
  syncPages oracleA 0 none accMapEmpty (initSyncState itemC1 emptyStore) [pageC1]

def stC1 : SyncState :=
  match runC1 with
  | .ok st => st
  | .error _ => initSyncState itemC1 emptyStore

def runC1full : Except PyError SyncState :=
  syncTransactions oracleA 0 none accMapEmpty itemC1 emptyStore [pageC1]

def stC1full : SyncState :=
  match runC1full with
  | .ok st => st
  | .error _ => initSyncState itemC1 emptyStore

/-- C1 counterexample: after the first page's batch has been applied and
committed (with `has_more = true`, so another page is about to be
fetched), the cursor persisted on the item row is still the start-of-call
cursor "c0", not the page's next-cursor "c1" — the claim that the cursor
is persisted together with each page's commit is false of the code. -/
theorem C1_counterexample :
    (syncPages oracleA 0 none accMapEmpty (initSyncState itemC1 emptyStore) [pageC1]).map
      (fun st => (st.committedItem.cursor, st.localCursor)) = .ok (some "c0", "c1") ∧
    itemC1.cursor = some "c0" ∧ pageC1.next_cursor = "c1" ∧ pageC1.has_more = true := by
  exact ⟨rfl, rfl, rfl, rfl⟩

/-- C1 (amended): the per-page commit persists the page's local
mutations but not the cursor — throughout the page loop the committed
item row (cursor included) keeps its start-of-call state, so a sync
interrupted between pages resumes from the cursor held at the start of
the call (re-processed pages being deduplicated by the external-id
check); the cursor is persisted exactly once, after the final page,
holding that page's next-cursor. -/
theorem C1_cursor_persisted_after_loop (o : Oracle) (now : Nat) (env : Option String)
    (accMap : String → Option Account) (item : PlaidItem) (s : Store)
    (pages : List SyncPage) (st st' : SyncState) (p : SyncPage) :
    (syncPages o now env accMap (initSyncState item s) pages = .ok st →
      st.item = item ∧ st.committedItem = item ∧
      (pages.getLast? = some p → st.localCursor = p.next_cursor)) ∧
    (syncTransactions o now env accMap item s pages = .ok st' →
      st'.committedItem.cursor = some st'.localCursor ∧
      st'.item.cursor = some st'.localCursor) := by
  constructor
  · intro h
    obtain ⟨h1, h2⟩ := syncPages_item o now env accMap pages (initSyncState item s) st h
    refine ⟨h1, ?_, fun hl => syncPages_lastCursor o now env accMap pages _ st p h hl⟩
    rcases h2 with h2 | h2 <;> exact h2
  · intro h
    simp only [syncTransactions] at h
    rcases hp : syncPages o now env accMap (initSyncState item s) pages with e | st1
    · rw [hp] at h; exact absurd h (by simp)
    · rw [hp] at h
      simp only [Except.ok.injEq] at h
      subst h
      exact ⟨rfl, rfl⟩

/-- Witness for the amended C1 theorem on the concrete one-page run. -/
theorem C1_cursor_persisted_after_loop_witness :
    (stC1.item = itemC1 ∧ stC1.committedItem = itemC1 ∧
      ([pageC1].getLast? = some pageC1 → stC1.localCursor = pageC1.next_cursor)) ∧
    (stC1full.committedItem.cursor = some stC1full.localCursor ∧
      stC1full.item.cursor = some stC1full.localCursor) :=
  ⟨(C1_cursor_persisted_after_loop oracleA 0 none accMapEmpty itemC1 emptyStore [pageC1]
      stC1 stC1full pageC1).1 rfl,
   (C1_cursor_persisted_after_loop oracleA 0 none accMapEmpty itemC1 emptyStore [pageC1]
      stC1 stC1full pageC1).2 rfl⟩

/-- C3: a transaction with a (non-zero) category id and
`auto_categorized = false` is manually categorized: the cascade returns
the skipped outcome (method None, the unchanged category id), and the
store — transactions, rules and mapping statistics included — and the
transaction itself are completely unchanged. -/
theorem C3_manual_edit_sticky (o : Oracle) (now : Nat) (s : Store) (t : Transaction)
    (c : Int) (hcat : t.category_id = some c) (hc : c ≠ 0)
    (hauto : t.auto_categorized = false) :
    applyAutoCategorization o now s t = .ok (s, t, ⟨none, some c, none⟩) := by
  have hguard : (truthyInt t.category_id && !t.auto_categorized) = true := by
    rw [hcat, hauto]
    simp [truthyInt, hc]
  simp only [applyAutoCategorization, if_pos hguard]
  rw [hcat]

def txnC3 : Transaction := { txnBase with category_id := some 5 }

/-- Witness for C3 at a concrete manually-categorized transaction. -/
theorem C3_manual_edit_sticky_witness :
    applyAutoCategorization oracleA 1 emptyStore txnC3 =
      .ok (emptyStore, txnC3, ⟨none, some 5, none⟩) :=
  C3_manual_edit_sticky oracleA 1 emptyStore txnC3 5 rfl (by decide) rfl

/-- C5 counterexample: on a transaction whose `payee` is NULL, a leaf
with operator `not_equals` and the non-null expected value "x" evaluates
to false, although the claim's null-equality semantics say it should be
true. -/
theorem C5_counterexample :
    getFieldValue [] txnBase "payee" = .vnull ∧
    evaluateCondition [] rxNone txnBase (.leaf "payee" "not_equals" (.vstr "x")) = false := by
  exact ⟨rfl, rfl⟩

/-- C5 (amended): a leaf whose field resolves to NULL is true exactly
when the operator is `equals` and the expected value is an explicit
null; every other combination — `not_equals` against any value (null or
not) included — is false. -/
theorem C5_null_field_semantics (accounts : List Account) (rx : String → String → Bool)
    (t : Transaction) (field op : String) (v : Value)
    (hfield : field ≠ "") (hnull : getFieldValue accounts t field = .vnull) :
    (evaluateCondition accounts rx t (.leaf field op v) = true ↔
      (op = "equals" ∧ v = .vnull)) := by
  by_cases hop : op = ""
  · subst hop
    simp [evaluateCondition]
  · simp only [evaluateCondition]
    rw [if_neg (by push_neg; exact ⟨hfield, hop⟩)]
    by_cases hmem : op ∈ ["equals", "not_equals"]
    · rw [if_neg (by simp [hmem, hnull])]
      rw [hnull]
      simp only [applyOperator, if_pos rfl]
      simp
    · rw [if_pos ⟨hnull, hmem⟩]
      constructor
      · intro habs; exact absurd habs (by simp)
      · rintro ⟨h1, _⟩
        exact absurd (by rw [h1]; simp : op ∈ ["equals", "not_equals"]) hmem

/-- Witness for the amended C5 theorem: `equals` against an explicit
null on a NULL payee is true. -/
theorem C5_null_field_semantics_witness :
    ("payee" ≠ "") ∧ getFieldValue [] txnBase "payee" = .vnull ∧
    (evaluateCondition [] rxNone txnBase (.leaf "payee" "equals" .vnull) = true ↔
      ("equals" = "equals" ∧ Value.vnull = .vnull)) :=
  ⟨by decide, rfl,
   C5_null_field_semantics [] rxNone txnBase "payee" "equals" .vnull (by decide) rfl⟩

/-! Field-preservation facts about the individual action blocks. -/

@[simp] lemma applySetPayee_category_id (t : Transaction) (p : Option String) :
    (applySetPayee t p).category_id = t.category_id := by cases p <;> rfl

@[simp] lemma applySetPayee_auto (t : Transaction) (p : Option String) :
    (applySetPayee t p).auto_categorized = t.auto_categorized := by cases p <;> rfl

@[simp] lemma applySetPayee_method (t : Transaction) (p : Option String) :
    (applySetPayee t p).categorization_method = t.categorization_method := by cases p <;> rfl

@[simp] lemma applyAddTags_category_id (t : Transaction) (tv : Option TagsVal) :
    (applyAddTags t tv).category_id = t.category_id := by
  cases tv with
  | none => rfl
  | some v => cases v <;> rfl

@[simp] lemma applyAddTags_auto (t : Transaction) (tv : Option TagsVal) :
    (applyAddTags t tv).auto_categorized = t.auto_categorized := by
  cases tv with
  | none => rfl
  | some v => cases v <;> rfl

@[simp] lemma applyAddTags_method (t : Transaction) (tv : Option TagsVal) :
    (applyAddTags t tv).categorization_method = t.categorization_method := by
  cases tv with
  | none => rfl
  | some v => cases v <;> rfl

@[simp] lemma applyAddTags_payee (t : Transaction) (tv : Option TagsVal) :
    (applyAddTags t tv).payee = t.payee := by
  cases tv with
  | none => rfl
  | some v => cases v <;> rfl

@[simp] lemma applySetReviewed_category_id (t : Transaction) (b : Option Bool) :
    (applySetReviewed t b).category_id = t.category_id := by cases b <;> rfl

@[simp] lemma applySetReviewed_auto (t : Transaction) (b : Option Bool) :
    (applySetReviewed t b).auto_categorized = t.auto_categorized := by cases b <;> rfl

@[simp] lemma applySetReviewed_method (t : Transaction) (b : Option Bool) :
    (applySetReviewed t b).categorization_method = t.categorization_method := by
  cases b <;> rfl

@[simp] lemma applySetReviewed_payee (t : Transaction) (b : Option Bool) :
    (applySetReviewed t b).payee = t.payee := by cases b <;> rfl

/-- The `set_category` block with an unknown category name: the category
id is untouched, but the auto-categorization markers are still set. -/
lemma applySetCategory_byName_miss (cats : List Category) (t : Transaction) (name : String)
    (hmiss : cats.find? (fun c : Category => c.name = name) = none) :
    applySetCategory cats t (some (.byName name)) =
      { t with auto_categorized := true, categorization_method := some .rule } := by
  simp only [applySetCategory, hmiss]

def actsC7 : Actions := { set_category := some (.byName "Nope") }

/-- C7 counterexample: the `set_category` action naming the unknown
category "Nope" leaves the category reference unchanged but is not a
no-op — the transaction comes out with `auto_categorized = true`
(and `categorization_method = "rule"`), different from the input. -/
theorem C7_counterexample :
    ([] : List Category).find? (fun c : Category => c.name = "Nope") = none ∧
    (applyActions [] txnBase actsC7).category_id = txnBase.category_id ∧
    applyActions [] txnBase actsC7 ≠ txnBase ∧
    (applyActions [] txnBase actsC7).auto_categorized = true ∧
    txnBase.auto_categorized = false := by
  refine ⟨rfl, rfl, ?_, rfl, rfl⟩
  decide

/-- C7 (amended): when `set_category` names an unknown category, the
category reference stays unchanged (warning only) and processing
continues — the remaining actions of the set are still applied — but the
transaction is nevertheless marked `auto_categorized = true` with
`categorization_method = "rule"`. -/
theorem C7_unknown_category_name (cats : List Category) (t : Transaction) (a : Actions)
    (name : String) (hsc : a.set_category = some (.byName name))
    (hmiss : cats.find? (fun c : Category => c.name = name) = none) :
    (applyActions cats t a).category_id = t.category_id ∧
    (applyActions cats t a).auto_categorized = true ∧
    (applyActions cats t a).categorization_method = some .rule ∧
    (∀ p, a.set_payee = some p → (applyActions cats t a).payee = some p) ∧
    (∀ b, a.set_reviewed = some b → (applyActions cats t a).reviewed = b) := by
  have hbase := applySetCategory_byName_miss cats t name hmiss
  refine ⟨?_, ?_, ?_, ?_, ?_⟩
  · simp [applyActions, hsc, hbase]
  · simp [applyActions, hsc, hbase]
  · simp [applyActions, hsc, hbase]
  · intro p hp
    simp [applyActions, hsc, hbase, hp, applySetPayee]
  · intro b hb
    simp [applyActions, hsc, hb, applySetReviewed]

def actsC7b : Actions :=
  { set_category := some (.byName "Nope"), set_payee := some "NewPayee",
    set_reviewed := some true }

/-- Witness for the amended C7 theorem at a concrete action set carrying
an unknown category name plus payee and reviewed actions. -/
theorem C7_unknown_category_name_witness :
    (applyActions [] txnBase actsC7b).category_id = txnBase.category_id ∧
    (applyActions [] txnBase actsC7b).auto_categorized = true ∧
    (applyActions [] txnBase actsC7b).categorization_method = some .rule ∧
    (∀ p, actsC7b.set_payee = some p → (applyActions [] txnBase actsC7b).payee = some p) ∧
    (∀ b, actsC7b.set_reviewed = some b → (applyActions [] txnBase actsC7b).reviewed = b) :=
  C7_unknown_category_name [] txnBase actsC7b "Nope" rfl rfl

/-! C8 fixtures: the spec's example scenario. -/

def acctC8 : Account :=
  { id := 1, name := "Checking", official_name := none, plaid_account_id := "a1" }

def mapC8 : PlaidCategoryMapping :=
  { id := 1, plaid_primary_category := "FOOD", plaid_detailed_category := some "COFFEE",
    category_id := 7, confidence := 1, auto_apply := true, match_count := 0,
    last_matched_at := none }

def storeC8 : Store :=
  { accounts := [acctC8], transactions := [], categories := [], mappings := [mapC8],
    rules := [], nextTxnId := 1 }

def recC8 : TxnRecord :=
  { transaction_id := "t1", account_id := "a1", date := "2024-01-01", name := "Coffee Shop",
    merchant_name := some "Coffee Shop", amount := 25.5, iso_currency_code := some "USD",
    pending := true,
    personal_finance_category :=
      some { primary := some "FOOD", detailed := some "COFFEE", confidence_level := some "HIGH" },
    category := none }

def accMapC8 : String → Option Account := fun aid => if aid = "a1" then some acctC8 else none

/-- C8: the example scenario.  Reconciling the added record
(ext id "t1", account "a1", debit 25.50, pending, FOOD/COFFEE) against a
store holding the auto-apply mapping (FOOD, COFFEE) → category 7 yields
one stored transaction with amount −25.50 (sign-normalized), category 7,
categorization method "plaid_mapping" (the stored name of the spec's
`mapping` method) and `auto_categorized = true`.  The oracle is
irrelevant: the mapping stage resolves before the rule engine is
consulted. -/
theorem C8_example_scenario (o : Oracle) :
    (processAdded o 99 (some "sandbox") accMapC8 storeC8 [recC8] 0).map
      (fun p => (p.2, p.1.transactions.map (fun t =>
        (t.plaid_transaction_id, t.amount, t.category_id, t.categorization_method,
          t.auto_categorized, t.pending)))) =
      .ok (1, [(some "t1", -(25.5 : Rat), some 7, some .plaid_mapping, true, true)]) := rfl

/-- C2: reconciling an added batch is idempotent.  Starting from a store
whose external ids are unique, one application keeps them unique and
leaves exactly one transaction per processed external id (for records
whose account resolves); a second application of the same batch finds
every record already present (or still lacking its account), takes the
skip branch throughout, creates nothing, and returns the store
unchanged. -/
theorem C2_added_batch_idempotent (o : Oracle) (now : Nat) (env : Option String)
    (accMap : String → Option Account) (s s1 : Store) (batch : List TxnRecord) (n1 : Nat)
    (hnd : (plaidIds s).Nodup)
    (h1 : processAdded o now env accMap s batch 0 = .ok (s1, n1)) :
    (plaidIds s1).Nodup ∧
    (∀ rec ∈ batch, (accMap rec.account_id).isSome = true →
      (s1.transactions.filter
        (fun t => t.plaid_transaction_id = some rec.transaction_id)).length = 1) ∧
    processAdded o now env accMap s1 batch 0 = .ok (s1, 0) := by
  obtain ⟨⟨ext, hext⟩, hndp, hmem⟩ := processAdded_spec o now env accMap batch s 0 s1 n1 h1
  have hnd1 := hndp hnd
  refine ⟨hnd1, ?_, ?_⟩
  · intro rec hrec hacc
    exact filter_plaid_count rec.transaction_id s1.transactions hnd1 (hmem rec hrec hacc)
  · exact processAdded_skip o now env accMap batch s1 0 hmem

def runC2 : Except PyError (Store × Nat) :=
  processAdded oracleA 99 (some "sandbox") accMapC8 storeC8 [recC8] 0

def storeC2 : Store :=
  match runC2 with
  | .ok (s, _) => s
  | .error _ => storeC8

/-- Witness for C2 on a concrete one-record batch (the C8 fixtures). -/
theorem C2_added_batch_idempotent_witness :
    (plaidIds storeC8).Nodup ∧
    ((plaidIds storeC2).Nodup ∧
      (∀ rec ∈ [recC8], (accMapC8 rec.account_id).isSome = true →
        (storeC2.transactions.filter
          (fun t => t.plaid_transaction_id = some rec.transaction_id)).length = 1) ∧
      processAdded oracleA 99 (some "sandbox") accMapC8 storeC2 [recC8] 0 =
        .ok (storeC2, 0)) :=
  ⟨by decide,
   C2_added_batch_idempotent oracleA 99 (some "sandbox") accMapC8 storeC8 storeC2 [recC8] 1
     (by decide) rfl⟩

/-! C4 fixtures: two equal-priority matching rules. -/

/-- A condition matching `txnBase` ("Coffee Shop" contains "coffee",
case-insensitively). -/
def condCoffee : Condition := .leaf "description" "contains" (.vstr "coffee")

def ruleC4a : Rule :=
  { id := 1, name := "first-created", conditions := .ok condCoffee,
    actions := .ok { set_payee := some "A" }, priority := 5, active := true,
    match_count := 0, last_matched_at := none }

def ruleC4b : Rule :=
  { id := 2, name := "second-created", conditions := .ok condCoffee,
    actions := .ok { set_payee := some "B" }, priority := 5, active := true,
    match_count := 0, last_matched_at := none }

def storeC4 : Store := { emptyStore with rules := [ruleC4a, ruleC4b] }

/-- A query result the database may return for `storeC4`: it contains
exactly the active rules and is priority-descending (both rules have
priority 5), but lists the later-created rule first. -/
def resC4 : List Rule := [ruleC4b, ruleC4a]

/-- C4 counterexample: the rules query only orders by priority
descending, so `resC4` — the later-created rule first — is a legal query
result; on it the loop fires rule 2 (its statistics are updated and its
actions returned), although rule 1 has equal priority, also matches, and
was created first.  The claimed creation-order tie-break does not exist
in the code. -/
theorem C4_counterexample :
    validRuleQuery storeC4.rules resC4 ∧
    ruleC4a.priority = ruleC4b.priority ∧ ruleC4a.id < ruleC4b.id ∧
    matchesConditions storeC4.accounts rxNone txnBase ruleC4a = .ok true ∧
    matchesConditions storeC4.accounts rxNone txnBase ruleC4b = .ok true ∧
    (applyRulesOn 7 rxNone storeC4 resC4 txnBase true).map
      (fun p => (p.1.rules.map (fun r => (r.id, r.match_count)), p.2.2)) =
      .ok ([(1, 0), (2, 1)], some { set_payee := some "B" }) := by
  refine ⟨⟨?_, rfl⟩, rfl, by decide, rfl, rfl, rfl⟩
  show ([ruleC4b, ruleC4a] : List Rule).Perm [ruleC4a, ruleC4b]
  exact List.Perm.swap ruleC4a ruleC4b []

/-- C4 (amended): the query orders active rules by priority descending
only; the relative order of equal-priority rules is whatever order the
store returns and is not tied to creation order.  What does hold, for
every legal query order: the rule the loop fires is active, matches, and
no active matching rule has strictly higher priority — so the outcome is
determined whenever matching rules have distinct priorities. -/
theorem C4_priority_determinism (o : Oracle) (now : Nat) (s : Store) (t : Transaction)
    (res : List Rule) (r : Rule) (b : Bool)
    (hvalid : validRuleQuery s.rules res)
    (hfirst : firstMatchingRule s.accounts o.rx t res = .ok (some r)) :
    r.active = true ∧
    matchesConditions s.accounts o.rx t r = .ok true ∧
    (∀ r' ∈ s.rules, r'.active = true → matchesConditions s.accounts o.rx t r' = .ok true →
      r'.priority ≤ r.priority) ∧
    applyRulesOn now o.rx s res t b =
      (match parseActions r with
       | .error e => .error e
       | .ok acts => .ok (ruleFireStep now s t b r acts)) := by
  obtain ⟨hperm, hsort⟩ := hvalid
  have hr_mem : r ∈ res := firstMatch_mem hfirst
  have hr_filter : r ∈ s.rules.filter (·.active) := hperm.mem_iff.mp hr_mem
  have hr_active : r.active = true := by
    have := (List.mem_filter.mp hr_filter).2
    simpa using this
  refine ⟨hr_active, firstMatch_matches hfirst, ?_,
    applyRulesOn_of_firstMatch_some now b hfirst⟩
  intro r' hr' hact hmatch
  have hr'_res : r' ∈ res :=
    hperm.mem_iff.mpr (List.mem_filter.mpr ⟨hr', by simpa using hact⟩)
  exact firstMatch_max hsort hfirst r' hr'_res hmatch

def storeC4w : Store := { emptyStore with rules := [ruleC4a] }

/-- Witness for the amended C4 theorem on a one-rule store. -/
theorem C4_priority_determinism_witness :
    validRuleQuery storeC4w.rules [ruleC4a] ∧
    (ruleC4a.active = true ∧
      matchesConditions storeC4w.accounts oracleA.rx txnBase ruleC4a = .ok true ∧
      (∀ r' ∈ storeC4w.rules, r'.active = true →
        matchesConditions storeC4w.accounts oracleA.rx txnBase r' = .ok true →
        r'.priority ≤ ruleC4a.priority) ∧
      applyRulesOn 7 oracleA.rx storeC4w [ruleC4a] txnBase true =
        (match parseActions ruleC4a with
         | .error e => .error e
         | .ok acts => .ok (ruleFireStep 7 storeC4w txnBase true ruleC4a acts))) :=
  ⟨⟨List.Perm.refl _, rfl⟩,
   C4_priority_determinism oracleA 7 storeC4w txnBase [ruleC4a] ruleC4a true
     ⟨List.Perm.refl _, rfl⟩ rfl⟩

/-! C6 fixtures: a malformed high-priority rule in front of a healthy
matching rule. -/

def ruleC6bad : Rule :=
  { id := 1, name := "broken", conditions := .malformed, actions := .ok {},
    priority := 10, active := true, match_count := 0, last_matched_at := none }

def ruleC6good : Rule :=
  { id := 2, name := "healthy", conditions := .ok condCoffee,
    actions := .ok { set_payee := some "G" }, priority := 1, active := true,
    match_count := 0, last_matched_at := none }

def storeC6 : Store := { emptyStore with rules := [ruleC6bad, ruleC6good] }

/-- C6 counterexample: with a malformed-conditions rule in the pass, the
`json.loads` exception escapes `apply_rules` — the pass is aborted with a
JSON decode error instead of skipping the rule, even though a later rule
would have matched, and the error propagates out of the cascade (and
hence aborts the reconciliation batch that invoked it). -/
theorem C6_counterexample :
    ruleC6bad.conditions = .malformed ∧
    matchesConditions storeC6.accounts rxNone txnBase ruleC6good = .ok true ∧
    applyRules oracleA 3 storeC6 txnBase true = .error .jsonDecodeError ∧
    applyAutoCategorization oracleA 3 storeC6 txnBase = .error .jsonDecodeError := by
  exact ⟨rfl, rfl, rfl, rfl⟩

/-- C6 (amended): a rule whose stored conditions are malformed JSON is
not skipped: as soon as the loop reaches it (no earlier rule having
matched), `apply_rules` raises the JSON decode error, the remaining
rules are never evaluated, and the error propagates out of the
auto-categorization cascade into the reconciliation batch. -/
theorem C6_malformed_rule_aborts (o : Oracle) (now : Nat) (s : Store) (t : Transaction)
    (b : Bool) (pre post : List Rule) (rBad : Rule)
    (hdec : o.sortRules s.rules = pre ++ rBad :: post)
    (hpre : ∀ r ∈ pre, matchesConditions s.accounts o.rx t r = .ok false)
    (hbad : rBad.conditions = .malformed)
    (hskip : truthyInt t.category_id = false)
    (hmap : mappingLookup s.mappings t = none) :
    applyRules o now s t b = .error .jsonDecodeError ∧
    applyAutoCategorization o now s t = .error .jsonDecodeError := by
  have h1 : ∀ b' : Bool, applyRules o now s t b' = .error .jsonDecodeError := by
    intro b'
    rw [applyRules, hdec]
    exact applyRulesOn_error_of_malformed now b' pre rBad post hpre hbad
  refine ⟨h1 b, ?_⟩
  have hguard : (truthyInt t.category_id && !t.auto_categorized) = false := by
    rw [hskip]; simp
  simp [applyAutoCategorization, hguard, hmap, h1 true]

/-- Witness for the amended C6 theorem on the concrete fixture store. -/
theorem C6_malformed_rule_aborts_witness :
    applyRules oracleA 3 storeC6 txnBase false = .error .jsonDecodeError ∧
    applyAutoCategorization oracleA 3 storeC6 txnBase = .error .jsonDecodeError :=
  C6_malformed_rule_aborts oracleA 3 storeC6 txnBase false [] [ruleC6good] ruleC6bad rfl
    (by simp) rfl rfl rfl

/-- C9: the modified-records loop re-invokes the cascade exactly when
the located transaction transitions pending → settled in this update or
(after the field updates, which never touch the category) has no truthy
category id; otherwise the row only receives the plain field updates. -/
theorem C9_settlement_recategorization (o : Oracle) (now : Nat) (env : Option String)
    (s : Store) (rec : TxnRecord) (t : Transaction) (n : Nat)
    (hfind : s.transactions.find?
      (fun u => u.plaid_transaction_id == some rec.transaction_id) = some t) :
    ((t.pending = true ∧ rec.pending = false) ∨ truthyInt t.category_id = false →
      processModifiedRecord o now env s rec n =
        (match applyAutoCategorization o now
            (updateTxn s t.id (fun u => updateFromRecord env u rec))
            (updateFromRecord env t rec) with
         | .error e => .error e
         | .ok (s2, _, _) => .ok (s2, n + 1))) ∧
    (¬((t.pending = true ∧ rec.pending = false) ∨ truthyInt t.category_id = false) →
      processModifiedRecord o now env s rec n =
        .ok (updateTxn s t.id (fun u => updateFromRecord env u rec), n + 1)) := by
  have hcatid : (updateFromRecord env t rec).category_id = t.category_id := rfl
  constructor
  · intro hc
    have hcond : ((t.pending && !rec.pending)
        || !truthyInt (updateFromRecord env t rec).category_id) = true := by
      rw [hcatid]
      rcases hc with ⟨h1, h2⟩ | h1
      · rw [h1, h2]; simp
      · rw [h1]; simp
    simp only [processModifiedRecord, hfind, hcond, if_true]
  · intro hc
    have hcond : ((t.pending && !rec.pending)
        || !truthyInt (updateFromRecord env t rec).category_id) = false := by
      rw [hcatid]
      push_neg at hc
      obtain ⟨h1, h2⟩ := hc
      have h2' : truthyInt t.category_id = true := by
        cases htr : truthyInt t.category_id with
        | false => exact absurd htr h2
        | true => rfl
      rw [h2']
      cases hp : t.pending with
      | false => simp
      | true =>
        cases hr : rec.pending with
        | false =>
          rw [hp, hr] at h1
          exact absurd rfl (h1 rfl)
        | true => simp
    simp only [processModifiedRecord, hfind, hcond, Bool.false_eq_true, if_false]

/-! C9 witness fixtures: a pending uncategorized transaction whose
settling update carries taxonomy codes that now hit a mapping. -/

def txnC9 : Transaction :=
  { txnBase with
      id := 9
      transaction_id := "plaid_t9"
      plaid_transaction_id := some "t9"
      pending := true }

def storeC9 : Store :=
  { accounts := [acctC8], transactions := [txnC9], categories := [], mappings := [mapC8],
    rules := [], nextTxnId := 10 }

def recC9 : TxnRecord :=
  { transaction_id := "t9", account_id := "a1", date := "2024-01-05", name := "Coffee Shop",
    merchant_name := some "Coffee Shop", amount := 25.5, iso_currency_code := some "USD",
    pending := false,
    personal_finance_category :=
      some { primary := some "FOOD", detailed := some "COFFEE", confidence_level := some "HIGH" },
    category := none }

/-- Witness for C9: the concrete pending → settled update goes through
the cascade branch, and the transaction — uncategorizable while pending —
acquires category 7 from the mapping on settlement. -/
theorem C9_settlement_recategorization_witness :
    (processModifiedRecord oracleA 5 (some "sandbox") storeC9 recC9 0 =
      (match applyAutoCategorization oracleA 5
          (updateTxn storeC9 txnC9.id (fun u => updateFromRecord (some "sandbox") u recC9))
          (updateFromRecord (some "sandbox") txnC9 recC9) with
       | .error e => .error e
       | .ok (s2, _, _) => .ok (s2, 0 + 1))) ∧
    (processModifiedRecord oracleA 5 (some "sandbox") storeC9 recC9 0).map
      (fun p => p.1.transactions.map (fun u => (u.category_id, u.pending, u.auto_categorized))) =
      .ok [(some 7, false, true)] :=
  ⟨(C9_settlement_recategorization oracleA 5 (some "sandbox") storeC9 recC9 txnC9 0 rfl).1
      (Or.inl ⟨rfl, rfl⟩),
   rfl⟩

/-- A decomposition of the query result into earlier non-matching rules
and the first matching rule pins down the loop's stopping point. -/
lemma firstMatch_decomp {accounts : List Account} {rx : String → String → Bool}
    {t : Transaction} (pre post : List Rule) (r : Rule)
    (hpre : ∀ r' ∈ pre, matchesConditions accounts rx t r' = .ok false)
    (hr : matchesConditions accounts rx t r = .ok true) :
    firstMatchingRule accounts rx t (pre ++ r :: post) = .ok (some r) := by
  induction pre with
  | nil => simp only [List.nil_append, firstMatchingRule, hr]
  | cons x rest ih =>
    have hx := hpre x (List.mem_cons_self _ _)
    simp only [List.cons_append, firstMatchingRule, hx]
    exact ih (fun r' hr' => hpre r' (List.mem_cons_of_mem _ hr'))

/-- C10: when the first matching rule of the query order carries no
`set_category` action, the cascade reports `noCategorization` — method
None, category id None, the very same value the no-match path returns —
while the store still receives the rule's statistics update
(`updateRuleStats`) and the transaction still receives the rule's other
actions (`applyActions`: payee, tags, reviewed). -/
theorem C10_actions_without_set_category (o : Oracle) (now : Nat) (s : Store)
    (t : Transaction) (pre post : List Rule) (r : Rule) (acts : Actions)
    (hvalid : validRuleQuery s.rules (o.sortRules s.rules))
    (hdec : o.sortRules s.rules = pre ++ r :: post)
    (hpre : ∀ r' ∈ pre, matchesConditions s.accounts o.rx t r' = .ok false)
    (hr : matchesConditions s.accounts o.rx t r = .ok true)
    (hacts : parseActions r = .ok acts)
    (hnosc : acts.set_category = none)
    (hskip : truthyInt t.category_id = false)
    (hmap : mappingLookup s.mappings t = none) :
    r.active = true ∧
    applyAutoCategorization o now s t =
      .ok (updateTxn (updateRuleStats s r.id now) t.id
             (fun u => applyActions (updateRuleStats s r.id now).categories u acts),
           applyActions (updateRuleStats s r.id now).categories t acts,
           noCategorization) := by
  have hfirst : firstMatchingRule s.accounts o.rx t (o.sortRules s.rules) = .ok (some r) := by
    rw [hdec]; exact firstMatch_decomp pre post r hpre hr
  have hactive : r.active = true := by
    obtain ⟨hperm, _⟩ := hvalid
    have := hperm.mem_iff.mp (firstMatch_mem hfirst)
    simpa using (List.mem_filter.mp this).2
  have hrules : applyRules o now s t true =
      .ok (ruleFireStep now s t true r acts) := by
    rw [applyRules, applyRulesOn_of_firstMatch_some now true hfirst, hacts]
  have hguard : (truthyInt t.category_id && !t.auto_categorized) = false := by
    rw [hskip]; simp
  have hnoscSome : acts.set_category.isSome = false := by rw [hnosc]; rfl
  refine ⟨hactive, ?_⟩
  simp [applyAutoCategorization, hguard, hmap, hrules, ruleFireStep, hnoscSome]

/-! C10 witness fixtures: a single matching rule that only sets the
payee. -/

def ruleC10 : Rule :=
  { id := 3, name := "payee-only", conditions := .ok condCoffee,
    actions := .ok { set_payee := some "Starbucks" }, priority := 1, active := true,
    match_count := 0, last_matched_at := none }

def storeC10 : Store := { emptyStore with rules := [ruleC10] }

def actsC10 : Actions := { set_payee := some "Starbucks" }

/-- Witness for C10: the concrete run returns the no-categorization
shape while the payee is overwritten and the rule's match count is
committed as 1. -/
theorem C10_actions_without_set_category_witness :
    (ruleC10.active = true ∧
      applyAutoCategorization oracleA 4 storeC10 txnBase =
        .ok (updateTxn (updateRuleStats storeC10 ruleC10.id 4) txnBase.id
               (fun u => applyActions (updateRuleStats storeC10 ruleC10.id 4).categories u
                 actsC10),
             applyActions (updateRuleStats storeC10 ruleC10.id 4).categories txnBase actsC10,
             noCategorization)) ∧
    (applyAutoCategorization oracleA 4 storeC10 txnBase).map
      (fun p => (p.2.1.payee, p.1.rules.map (fun r => (r.match_count, r.last_matched_at)))) =
      .ok (some "Starbucks", [(1, some 4)]) :=
  ⟨C10_actions_without_set_category oracleA 4 storeC10 txnBase [] [] ruleC10 actsC10
     ⟨List.Perm.refl _, rfl⟩ rfl (by simp) rfl rfl rfl rfl rfl,
   rfl⟩

end MintBean
